import Mathlib

/- Verification development for the textual codec layer of the ripple ledger
   library (package data, file ledger/interface.go).

   The Go source is shallowly embedded: byte strings are Lean Strings or lists
   of characters, byte arrays are lists of naturals (each byte a Nat), machine
   integers are Nat/Int with explicit wrap-around where Go overflow matters,
   and every fallible operation returns an explicit outcome value.  A Go
   runtime panic is modelled as a distinguished outcome constructor, never as
   a Lean-side error. -/

namespace RippleCodec

/- ------------------------------------------------------------------ -/
/- Decimal strings: model of strconv.FormatUint(n, 10) and of decimal
   digit parsing as used by strconv.ParseInt / the value parser.        -/
/- ------------------------------------------------------------------ -/

/-- Decimal digit character for a digit value below ten ('0'..'9'). -/
def decDigit (n : Nat) : Char := Char.ofNat (48 + n % 10)

/-- Decimal digits, least significant first; the fuel only bounds the
    recursion depth and never runs out when it starts at n. -/
def toDigitsRevAux (fuel n : Nat) : List Nat :=
  match fuel with
  | 0 => [n % 10]
  | fuel + 1 => if n < 10 then [n] else n % 10 :: toDigitsRevAux fuel (n / 10)

/-- Decimal digits of a natural number, least significant first. -/
def toDigitsRev (n : Nat) : List Nat := toDigitsRevAux n n

theorem toDigitsRevAux_congr :
    ∀ f1 f2 n, n ≤ f1 → n ≤ f2 → toDigitsRevAux f1 n = toDigitsRevAux f2 n := by
  intro f1
  induction f1 with
  | zero =>
    intro f2 n h1 _
    have hn : n = 0 := by omega
    subst hn
    cases f2 <;> simp [toDigitsRevAux]
  | succ f ih =>
    intro f2 n h1 h2
    cases f2 with
    | zero =>
      have hn : n = 0 := by omega
      subst hn
      simp [toDigitsRevAux]
    | succ g =>
      by_cases hlt : n < 10
      · simp [toDigitsRevAux, hlt]
      · simp only [toDigitsRevAux, if_neg hlt]
        have hd : n / 10 ≤ n - 1 := by omega
        rw [ih g (n / 10) (by omega) (by omega)]

/-- The defining recurrence of toDigitsRev. -/
theorem toDigitsRev_eq (n : Nat) :
    toDigitsRev n = if n < 10 then [n] else n % 10 :: toDigitsRev (n / 10) := by
  unfold toDigitsRev
  by_cases hlt : n < 10
  · cases n with
    | zero => simp [toDigitsRevAux]
    | succ m => simp [toDigitsRevAux, hlt]
  · have hn : ∃ f, n = f + 1 := ⟨n - 1, by omega⟩
    obtain ⟨f, hf⟩ := hn
    rw [hf]
    show toDigitsRevAux (f + 1) (f + 1) = _
    rw [toDigitsRevAux]
    rw [if_neg (hf ▸ hlt), if_neg (hf ▸ hlt)]
    rw [toDigitsRevAux_congr f ((f + 1) / 10) ((f + 1) / 10) (by omega) (by omega)]

/-- Model of strconv.FormatUint(n, 10): the decimal string of n. -/
def decString (n : Nat) : String := String.mk ((toDigitsRev n).reverse.map decDigit)

/-- Decimal digit value of a character, if it is one of '0'..'9'. -/
def decDigitVal (c : Char) : Option Nat :=
  if 48 ≤ c.toNat ∧ c.toNat ≤ 57 then some (c.toNat - 48) else none

/-- Left fold of decimal digits onto an accumulator; fails at the first
    character that is not a decimal digit. -/
def parseDigits (cs : List Char) (acc : Nat) : Option Nat :=
  match cs with
  | [] => some acc
  | c :: rest =>
    match decDigitVal c with
    | some d => parseDigits rest (acc * 10 + d)
    | none => none

/-- Parse of a non-empty all-digit string into a natural number. -/
def parseDecNat (cs : List Char) : Option Nat :=
  match cs with
  | [] => none
  | _ => parseDigits cs 0

theorem decDigitVal_decDigit (d : Nat) (h : d < 10) :
    decDigitVal (decDigit d) = some d := by
  interval_cases d <;> decide

theorem toDigitsRev_ne_nil (n : Nat) : toDigitsRev n ≠ [] := by
  rw [toDigitsRev_eq]
  split <;> simp

theorem toDigitsRev_lt (n : Nat) : ∀ d ∈ toDigitsRev n, d < 10 := by
  induction n using Nat.strong_induction_on with
  | _ n ih =>
    intro d hd
    rw [toDigitsRev_eq] at hd
    by_cases h : n < 10
    · rw [if_pos h] at hd
      simp at hd
      omega
    · rw [if_neg h] at hd
      rcases List.mem_cons.mp hd with hd | hd
      · omega
      · exact ih (n / 10) (Nat.div_lt_self (by omega) (by omega)) d hd

theorem parseDigits_append (l1 l2 : List Char) (acc : Nat) :
    parseDigits (l1 ++ l2) acc =
      match parseDigits l1 acc with
      | some m => parseDigits l2 m
      | none => none := by
  induction l1 generalizing acc with
  | nil => simp [parseDigits]
  | cons c rest ih =>
    simp only [List.cons_append, parseDigits]
    cases decDigitVal c with
    | none => simp
    | some d => simp [ih]

theorem parseDigits_digits (n : Nat) :
    ∀ acc, parseDigits ((toDigitsRev n).reverse.map decDigit) acc =
      some (acc * 10 ^ (toDigitsRev n).length + n) := by
  induction n using Nat.strong_induction_on with
  | _ n ih =>
    intro acc
    rw [toDigitsRev_eq]
    by_cases h : n < 10
    · rw [if_pos h]
      simp [parseDigits, decDigitVal_decDigit n h]
    · rw [if_neg h]
      simp only [List.reverse_cons, List.map_append, List.map_cons, List.map_nil]
      rw [parseDigits_append]
      rw [ih (n / 10) (Nat.div_lt_self (by omega) (by omega)) acc]
      have h10 : n % 10 < 10 := by omega
      simp [parseDigits, decDigitVal_decDigit _ h10, List.length_reverse]
      ring_nf
      omega

/-- Round trip: parsing the decimal string of n yields n. -/
theorem parseDecNat_decString (n : Nat) : parseDecNat (decString n).data = some n := by
  have hne : (toDigitsRev n).reverse.map decDigit ≠ [] := by
    simp [toDigitsRev_ne_nil n]
  obtain ⟨a, l, hx⟩ : ∃ a l, (toDigitsRev n).reverse.map decDigit = a :: l := by
    cases hxx : (toDigitsRev n).reverse.map decDigit with
    | nil => exact absurd hxx hne
    | cons a l => exact ⟨a, l, rfl⟩
  show parseDecNat ((toDigitsRev n).reverse.map decDigit) = some n
  rw [hx]
  show parseDigits (a :: l) 0 = some n
  rw [← hx]
  have h := parseDigits_digits n 0
  rw [h]
  norm_num

/- ------------------------------------------------------------------ -/
/- Model of Go's encoding/hex.                                         -/
/- ------------------------------------------------------------------ -/

/-- Hex digit value of a character; models fromHexChar of encoding/hex
    ('0'-'9', 'a'-'f', 'A'-'F'). -/
def fromHexChar (c : Char) : Option Nat :=
  if 48 ≤ c.toNat ∧ c.toNat ≤ 57 then some (c.toNat - 48)
  else if 97 ≤ c.toNat ∧ c.toNat ≤ 102 then some (c.toNat - 97 + 10)
  else if 65 ≤ c.toNat ∧ c.toNat ≤ 70 then some (c.toNat - 65 + 10)
  else none

/-- Result of hex.Decode(dst, src).  Each constructor carries the bytes
    written into dst before the outcome was reached: Go writes the decoded
    prefix into dst even when it later reports an error.  crashRes models the
    runtime panic raised by the write dst[i] when i is past the end of dst. -/
inductive HexRes
  | okRes (w : List Nat)
  | errByte (w : List Nat)
  | errLength (w : List Nat)
  | crashRes (w : List Nat)
  deriving DecidableEq

/-- Bytes written into the destination before the call ended. -/
def HexRes.written : HexRes → List Nat
  | .okRes w => w
  | .errByte w => w
  | .errLength w => w
  | .crashRes w => w

/-- True for the two reportable error outcomes of hex.Decode. -/
def HexRes.isFormatErr : HexRes → Bool
  | .errByte _ => true
  | .errLength _ => true
  | _ => false

/-- True when hex.Decode returned without error. -/
def HexRes.isOk : HexRes → Bool
  | .okRes _ => true
  | _ => false

/-- True when the call panicked (write past the end of dst). -/
def HexRes.isCrash : HexRes → Bool
  | .crashRes _ => true
  | _ => false

/-- Model of the loop of hex.Decode(dst, src): src is consumed two characters
    at a time; each pair is checked before the decoded byte is written; a
    write past the destination capacity cap is the runtime panic; a trailing
    lone character gives ErrLength unless it is itself invalid. -/
def hexDecodeCore (cap : Nat) (w : List Nat) (cs : List Char) : HexRes :=
  match cs with
  | [] => .okRes w
  | [c1] =>
    match fromHexChar c1 with
    | none => .errByte w
    | some _ => .errLength w
  | c1 :: c2 :: rest =>
    match fromHexChar c1 with
    | none => .errByte w
    | some a =>
      match fromHexChar c2 with
      | none => .errByte w
      | some b =>
        if w.length < cap then hexDecodeCore cap (w ++ [a * 16 + b]) rest
        else .crashRes w

/-- Model of hex.DecodeString(s): the destination is freshly allocated with
    capacity len(s)/2, and the decoded bytes are returned only on success. -/
def hexDecodeString (s : String) : Except Unit (List Nat) :=
  match hexDecodeCore (s.length / 2) [] s.data with
  | .okRes w => .ok w
  | _ => .error ()

/-- Lowercase hex digit character table of encoding/hex. -/
def hexChar (n : Nat) : Char := "0123456789abcdef".data.getD n '0'

/-- Model of hex.EncodeToString (and of the source's b2h helper): two
    lowercase hex characters per byte. -/
def hexEncode (bs : List Nat) : String :=
  String.mk (bs.foldr (fun b acc => hexChar (b / 16 % 16) :: hexChar (b % 16) :: acc) [])

theorem hexEncode_length (bs : List Nat) : (hexEncode bs).length = 2 * bs.length := by
  show (bs.foldr (fun b acc => hexChar (b / 16 % 16) :: hexChar (b % 16) :: acc) []).length
      = 2 * bs.length
  induction bs with
  | nil => simp
  | cons b rest ih => simp [ih]; omega

theorem hexChar_mem_table (n : Nat) (h : n < 16) : hexChar n ∈ "0123456789abcdef".data := by
  interval_cases n <;> decide

theorem hexEncode_lower (bs : List Nat) :
    ∀ c ∈ (hexEncode bs).data, c ∈ "0123456789abcdef".data := by
  show ∀ c ∈ bs.foldr (fun b acc => hexChar (b / 16 % 16) :: hexChar (b % 16) :: acc) [], _
  induction bs with
  | nil => simp
  | cons b rest ih =>
    intro c hc
    simp only [List.foldr_cons, List.mem_cons] at hc
    rcases hc with hc | hc | hc
    · exact hc ▸ hexChar_mem_table _ (Nat.mod_lt _ (by omega))
    · exact hc ▸ hexChar_mem_table _ (Nat.mod_lt _ (by omega))
    · exact ih c hc

/-- Capacity bound under which hex.Decode cannot panic: the written prefix
    grows by one byte per two source characters. -/
theorem hexDecodeCore_no_crash (cap : Nat) (w : List Nat) (cs : List Char)
    (hlen : cs.length ≤ 2 * (cap - w.length) + 1) :
    (hexDecodeCore cap w cs).isCrash = false := by
  induction w, cs using hexDecodeCore.induct cap with
  | case1 => simp [hexDecodeCore, HexRes.isCrash]
  | case2 w c1 hc1 => simp [hexDecodeCore, hc1, HexRes.isCrash]
  | case3 w c1 v hc1 => simp [hexDecodeCore, hc1, HexRes.isCrash]
  | case4 w c1 c2 rest hc1 => simp [hexDecodeCore, hc1, HexRes.isCrash]
  | case5 w c1 c2 rest v hc1 hc2 => simp [hexDecodeCore, hc1, hc2, HexRes.isCrash]
  | case6 w c1 c2 rest v1 hc1 v2 hc2 hlt ih =>
    rw [hexDecodeCore, hc1, hc2]
    simp only [hlt, if_true]
    apply ih
    have h1 : (w ++ [v1 * 16 + v2]).length = w.length + 1 := by simp
    have h2 : (c1 :: c2 :: rest).length = rest.length + 2 := by simp
    rw [h1]
    rw [h2] at hlen
    omega
  | case7 w c1 c2 rest v1 hc1 v2 hc2 hge =>
    exfalso
    simp only [List.length_cons] at hlen
    omega

theorem hexDecodeCore_ok_shape (cap : Nat) (w : List Nat) (cs : List Char)
    (hok : (hexDecodeCore cap w cs).isOk = true) :
    cs.length % 2 = 0 ∧ ∀ c ∈ cs, (fromHexChar c).isSome = true := by
  induction w, cs using hexDecodeCore.induct cap with
  | case1 => simp
  | case2 w c1 hc1 => simp [hexDecodeCore, hc1, HexRes.isOk] at hok
  | case3 w c1 v hc1 => simp [hexDecodeCore, hc1, HexRes.isOk] at hok
  | case4 w c1 c2 rest hc1 => simp [hexDecodeCore, hc1, HexRes.isOk] at hok
  | case5 w c1 c2 rest v hc1 hc2 => simp [hexDecodeCore, hc1, hc2, HexRes.isOk] at hok
  | case6 w c1 c2 rest v1 hc1 v2 hc2 hlt ih =>
    rw [hexDecodeCore, hc1, hc2] at hok
    simp only [hlt, if_true] at hok
    obtain ⟨heven, hall⟩ := ih hok
    constructor
    · simp only [List.length_cons]
      omega
    · intro c hc
      rcases List.mem_cons.mp hc with hc | hc
      · simp [hc, hc1]
      · rcases List.mem_cons.mp hc with hc | hc
        · simp [hc, hc2]
        · exact hall c hc
  | case7 w c1 c2 rest v1 hc1 v2 hc2 hge =>
    rw [hexDecodeCore, hc1, hc2] at hok
    simp only [hge, if_false] at hok
    simp [HexRes.isOk] at hok

theorem hexDecodeCore_ok_of_shape (cap : Nat) (w : List Nat) (cs : List Char)
    (heven : cs.length % 2 = 0) (hall : ∀ c ∈ cs, (fromHexChar c).isSome = true)
    (hlen : cs.length ≤ 2 * (cap - w.length)) :
    (hexDecodeCore cap w cs).isOk = true := by
  induction w, cs using hexDecodeCore.induct cap with
  | case1 => simp [hexDecodeCore, HexRes.isOk]
  | case2 w c1 hc1 => simp at heven
  | case3 w c1 v hc1 => simp at heven
  | case4 w c1 c2 rest hc1 =>
    have := hall c1 (by simp)
    simp [hc1] at this
  | case5 w c1 c2 rest v hc1 hc2 =>
    have := hall c2 (by simp)
    simp [hc2] at this
  | case6 w c1 c2 rest v1 hc1 v2 hc2 hlt ih =>
    rw [hexDecodeCore, hc1, hc2]
    simp only [hlt, if_true]
    apply ih
    · simp only [List.length_cons] at heven ⊢
      omega
    · intro c hc
      exact hall c (by simp [hc])
    · have h1 : (w ++ [v1 * 16 + v2]).length = w.length + 1 := by simp
      have h2 : (c1 :: c2 :: rest).length = rest.length + 2 := by simp
      rw [h1]
      rw [h2] at hlen
      omega
  | case7 w c1 c2 rest v1 hc1 v2 hc2 hge =>
    exfalso
    simp only [List.length_cons] at hlen
    omega

theorem HexRes.formatErr_of_not_ok_not_crash (r : HexRes)
    (h1 : r.isOk = false) (h2 : r.isCrash = false) : r.isFormatErr = true := by
  cases r <;> simp_all [HexRes.isOk, HexRes.isCrash, HexRes.isFormatErr]

/- ------------------------------------------------------------------ -/
/- Model of the three regular-expression scans of the envelope decoder.

   Go's regexp package uses leftmost-first (Perl-style) matching with
   greedy quantifiers, and the dot metacharacter does not match a newline.
   For a pattern of the form LIT.*"(.*)" this means: the match starts at
   the leftmost occurrence of the literal LIT that is followed, on the same
   line, by at least two quote characters, and the capture group holds the
   text strictly between the LAST two quote characters of that line
   remainder (the outer .* is greedy, then the inner .* is greedy).        -/
/- ------------------------------------------------------------------ -/

/-- Remainder of the current line: the characters before the next newline. -/
def lineSeg (cs : List Char) : List Char := cs.takeWhile (fun c => c ≠ '\n')

/-- Text strictly between the last two quote characters of seg, if seg
    contains at least two quotes: the placement a greedy .*"(.*)" reaches. -/
def captureLastTwoQuotes (seg : List Char) : Option String :=
  match (seg.reverse).dropWhile (fun c => c ≠ '\"') with
  | [] => none
  | _ :: rest =>
    if (rest.dropWhile (fun c => c ≠ '\"')).isEmpty then none
    else some (String.mk (rest.takeWhile (fun c => c ≠ '\"')).reverse)

/-- Model of regexp.FindAllStringSubmatch(s, 1) for a pattern of the form
    LIT.*"(.*)": the capture of the leftmost successful match. -/
def scanQuoted (lit : List Char) (cs : List Char) : Option String :=
  match cs with
  | [] => none
  | _ :: rest =>
    match (if lit.isPrefixOf cs then captureLastTwoQuotes (lineSeg (cs.drop lit.length)) else none) with
    | some cap => some cap
    | none => scanQuoted lit rest

/-- Capture of the txmTransactionTypeRegex scan (source line 35). -/
def scanTxType (cs : List Char) : Option String :=
  scanQuoted ("\"TransactionType\":").data cs

/-- Capture of the txmHashRegex scan (source line 36). -/
def scanHash (cs : List Char) : Option String :=
  scanQuoted ("\"hash\":").data cs

/-- Capture of the txmMetaTypeRegex scan (source line 37): the pattern
    "(meta|metaData)" matches at the leftmost position where one of the two
    quoted alternatives occurs, trying meta first. -/
def scanMeta (cs : List Char) : Option String :=
  match cs with
  | [] => none
  | _ :: rest =>
    if ("\"meta\"").data.isPrefixOf cs then some "meta"
    else if ("\"metaData\"").data.isPrefixOf cs then some "metaData"
    else scanMeta rest

/- ------------------------------------------------------------------ -/
/- JSON values: the structural side of encoding/json as used by this
   codec layer.  Numbers are restricted to integers, which covers every
   numeric field of the modelled shapes (ledger sequence, indexes).     -/
/- ------------------------------------------------------------------ -/

inductive Json
  | jnull
  | jbool (b : Bool)
  | jnum (n : Int)
  | jstr (s : String)
  | jarr (xs : List Json)
  | jobj (kvs : List (String × Json))

/-- Whitespace accepted between JSON tokens. -/
def isWs (c : Char) : Bool := c = ' ' || c = '\n' || c = '\t' || c = '\r'

/-- Skip inter-token whitespace. -/
def skipWs (cs : List Char) : List Char := cs.dropWhile isWs

/-- Escape sequences accepted inside a JSON string literal. -/
def unescape (c : Char) : Option Char :=
  if c = 'n' then some '\n'
  else if c = 't' then some '\t'
  else if c = 'r' then some '\r'
  else if c = '\"' then some '\"'
  else if c = '\\' then some '\\'
  else if c = '/' then some '/'
  else if c = 'b' then some (Char.ofNat 8)
  else if c = 'f' then some (Char.ofNat 12)
  else none

/-- Parse the body of a JSON string literal after the opening quote,
    returning the unescaped contents and the input after the closing quote. -/
def pStr : List Char → Option (List Char × List Char)
  | [] => none
  | '\"' :: rest => some ([], rest)
  | '\\' :: c :: rest =>
    match pStr rest, unescape c with
    | some (s, r), some e => some (e :: s, r)
    | _, _ => none
  | c :: rest =>
    match pStr rest with
    | some (s, r) => some (c :: s, r)
    | none => none

/-- Decimal digit run value. -/
def digitsVal (ds : List Char) : Nat := ds.foldl (fun a c => a * 10 + (c.toNat - 48)) 0

/-- Character class of decimal digits. -/
def isDigit (c : Char) : Bool := 48 ≤ c.toNat && c.toNat ≤ 57

/-- Parse an integer JSON numeral (optional minus sign, digit run). -/
def pNum (cs : List Char) : Option (Int × List Char) :=
  match cs with
  | '-' :: rest =>
    let ds := rest.takeWhile isDigit
    if ds.isEmpty then none else some (-(digitsVal ds : Int), rest.dropWhile isDigit)
  | _ =>
    let ds := cs.takeWhile isDigit
    if ds.isEmpty then none else some ((digitsVal ds : Int), cs.dropWhile isDigit)

mutual

/-- Parse one JSON value; fuel bounds the recursion depth. -/
def pVal : Nat → List Char → Option (Json × List Char)
  | 0, _ => none
  | Nat.succ fuel, cs =>
    match skipWs cs with
    | [] => none
    | c :: rest =>
      if c = '\"' then
        match pStr rest with
        | some (s, r) => some (.jstr (String.mk s), r)
        | none => none
      else if c = '\x7b' then pObj fuel rest
      else if c = '[' then pArr fuel rest
      else if c = 't' then
        if ("rue").data.isPrefixOf rest then some (.jbool true, rest.drop 3) else none
      else if c = 'f' then
        if ("alse").data.isPrefixOf rest then some (.jbool false, rest.drop 4) else none
      else if c = 'n' then
        if ("ull").data.isPrefixOf rest then some (.jnull, rest.drop 3) else none
      else
        match pNum (c :: rest) with
        | some (n, r) => some (.jnum n, r)
        | none => none

/-- Parse an object body after the opening brace. -/
def pObj : Nat → List Char → Option (Json × List Char)
  | 0, _ => none
  | Nat.succ fuel, cs =>
    match skipWs cs with
    | '\x7d' :: rest => some (.jobj [], rest)
    | _ => pMembers fuel cs []

/-- Parse the members of a non-empty object body. -/
def pMembers : Nat → List Char → List (String × Json) → Option (Json × List Char)
  | 0, _, _ => none
  | Nat.succ fuel, cs, acc =>
    match skipWs cs with
    | '\"' :: rest =>
      match pStr rest with
      | none => none
      | some (k, r1) =>
        match skipWs r1 with
        | ':' :: r2 =>
          match pVal fuel r2 with
          | none => none
          | some (v, r3) =>
            match skipWs r3 with
            | ',' :: r4 => pMembers fuel r4 (acc ++ [(String.mk k, v)])
            | '\x7d' :: r4 => some (.jobj (acc ++ [(String.mk k, v)]), r4)
            | _ => none
        | _ => none
    | _ => none

/-- Parse an array body after the opening bracket. -/
def pArr : Nat → List Char → Option (Json × List Char)
  | 0, _ => none
  | Nat.succ fuel, cs =>
    match skipWs cs with
    | ']' :: rest => some (.jarr [], rest)
    | _ => pElems fuel cs []

/-- Parse the elements of a non-empty array body. -/
def pElems : Nat → List Char → List Json → Option (Json × List Char)
  | 0, _, _ => none
  | Nat.succ fuel, cs, acc =>
    match pVal fuel cs with
    | none => none
    | some (v, r1) =>
      match skipWs r1 with
      | ',' :: r2 => pElems fuel r2 (acc ++ [v])
      | ']' :: r2 => some (.jarr (acc ++ [v]), r2)
      | _ => none

end

/-- Model of json.Unmarshal viewed as a parser of the full input into a
    structural JSON value: one value, optionally surrounded by whitespace,
    nothing after it. -/
def jsonParse (s : String) : Option Json :=
  match pVal (2 * s.length + 4) s.data with
  | some (v, rest) => if (skipWs rest).isEmpty then some v else none
  | none => none

/-- String body escaping used on output. -/
def escapeChar (c : Char) : List Char :=
  if c = '\"' then ['\\', '\"']
  else if c = '\\' then ['\\', '\\']
  else if c = '\n' then ['\\', 'n']
  else if c = '\t' then ['\\', 't']
  else if c = '\r' then ['\\', 'r']
  else [c]

/-- Decimal rendering of an integer. -/
def intDec (n : Int) : List Char :=
  if n < 0 then '-' :: (decString n.natAbs).data else (decString n.natAbs).data

/-- Rendering of a JSON string literal. -/
def renderStr (s : String) : List Char :=
  '\"' :: s.data.foldr (fun c acc => escapeChar c ++ acc) ['\"']

mutual

/-- Compact rendering of a JSON value, as json.Marshal produces. -/
def renderJson : Json → List Char
  | .jnull => ('n' :: ('u' :: ('l' :: ('l' :: []))))
  | .jbool true => ('t' :: ('r' :: ('u' :: ('e' :: []))))
  | .jbool false => ('f' :: ('a' :: ('l' :: ('s' :: ('e' :: [])))))
  | .jnum n => intDec n
  | .jstr s => renderStr s
  | .jarr xs => '[' :: renderArr xs
  | .jobj kvs => '\x7b' :: renderObj kvs

/-- Render array elements followed by the closing bracket. -/
def renderArr : List Json → List Char
  | [] => [']']
  | [x] => renderJson x ++ [']']
  | x :: y :: xs => renderJson x ++ ',' :: renderArr (y :: xs)

/-- Render object members followed by the closing brace. -/
def renderObj : List (String × Json) → List Char
  | [] => ['\x7d']
  | [(k, v)] => renderStr k ++ ':' :: renderJson v ++ ['\x7d']
  | (k, v) :: m :: kvs => renderStr k ++ ':' :: renderJson v ++ ',' :: renderObj (m :: kvs)

end

/-- Last binding of a key in an object member list: the value json.Unmarshal
    leaves in a field when the key occurs more than once. -/
def lookupLast (kvs : List (String × Json)) (k : String) : Option Json :=
  ((kvs.filter (fun kv => kv.1 = k)).getLast?).map (fun kv => kv.2)

/- ------------------------------------------------------------------ -/
/- Enumeration tables and the transaction factory.                     -/
/- ------------------------------------------------------------------ -/

/-- Modelled from the spec: the name-to-code table txTypes of the closed
    transaction-type enumeration (spec 4.4, 6); the table itself lives
    outside the embedded source file.  Payment is the variant the spec's
    examples use; the other names are further registered variants. -/
def txTypes : List (String × Nat) :=
  [("Payment", 0), ("AccountSet", 3), ("SetRegularKey", 5),
   ("OfferCreate", 7), ("OfferCancel", 8), ("TrustSet", 20)]

/-- A type name is registered when the factory table knows it. -/
def registeredTxType (s : String) : Bool := (txTypes.lookup s).isSome

/-- Modelled from the spec: the external transaction-factory capability
    (spec 6): create(type name) yields an empty concrete transaction
    instance, identified here by its type code, and fails for a type name
    that is not registered.  The factory function itself is not part of the
    embedded source file. -/
def GetTxFactoryByType (s : String) : Option Nat := txTypes.lookup s

/-- Model of TransactionType.UnmarshalText (source lines 126-132); the
    lookup table is the spec-modelled txTypes. -/
def TransactionType.UnmarshalText (b : String) : Except String Nat :=
  match txTypes.lookup b with
  | some t => .ok t
  | none => .error b

/-- Model of TransactionType.MarshalText (source lines 122-124): the name
    table read back; an unknown code yields the empty string, the zero value
    a Go map returns for a missing key. -/
def TransactionType.MarshalText (t : Nat) : String :=
  ((txTypes.find? (fun kv => kv.2 = t)).map (fun kv => kv.1)).getD ""

/-- Modelled from the spec: the code-to-name table resultNames of the
    transaction-result enumeration (spec 4.4). -/
def resultNames : List (Nat × String) :=
  [(0, "tesSUCCESS"), (100, "tecCLAIM"), (101, "tecPATH_PARTIAL")]

/-- Model of TransactionResult.MarshalText (source lines 98-100). -/
def TransactionResult.MarshalText (r : Nat) : String :=
  (resultNames.lookup r).getD ""

/-- Model of TransactionResult.UnmarshalText (source lines 102-108): the
    reverse table lookup, failing on an unknown name. -/
def TransactionResult.UnmarshalText (b : String) : Except String Nat :=
  match resultNames.find? (fun kv => kv.2 = b) with
  | some kv => .ok kv.1
  | none => .error b

/-- Modelled from the spec: the name-to-code table of the ledger-entry-type
    enumeration (spec 4.4). -/
def ledgerEntryTypes : List (String × Nat) :=
  [("AccountRoot", 97), ("RippleState", 114), ("Offer", 111)]

/-- Model of LedgerEntryType.UnmarshalText (source lines 114-120). -/
def LedgerEntryType.UnmarshalText (b : String) : Except String Nat :=
  match ledgerEntryTypes.lookup b with
  | some t => .ok t
  | none => .error b

/-- Model of LedgerEntryType.MarshalText (source lines 110-112). -/
def LedgerEntryType.MarshalText (l : Nat) : String :=
  ((ledgerEntryTypes.find? (fun kv => kv.2 = l)).map (fun kv => kv.1)).getD ""

/- ------------------------------------------------------------------ -/
/- The transaction-with-metadata envelope.                             -/
/- ------------------------------------------------------------------ -/

/-- Errors the envelope decoder can report (source lines 39-80): the two
    missing-field errors, the bad-hash format error, the unknown-identifier
    error of the factory / the TransactionType field codec, and the
    structural json.Unmarshal failures of the three sub-decodes. -/
inductive DecErr
  | missingTxType
  | missingHash
  | badHash (s : String)
  | unknownTxType (t : String)
  | badTxStruct
  | badMergedStruct
  | badLedgerMeta
  deriving DecidableEq

/-- Outcome of a Go call: a result, a returned error, or a runtime panic. -/
inductive Outc (ε α : Type)
  | ok (a : α)
  | err (e : ε)
  | crash

/-- True unless the outcome is the runtime panic. -/
def Outc.noCrash : Outc ε α → Bool
  | .crash => false
  | _ => true

/-- Modelled from the spec: the decoded envelope entity (spec 3): the
    concrete transaction variant chosen by the discriminator (its type name
    and its own fields), the content hash, the ledger sequence number, and
    the optional execution metadata (empty list when absent; the spec leaves
    the metadata fields abstract, so the metadata is kept as the decoded
    member list of its JSON object). -/
structure TransactionWithMetaData where
  txType : String
  txFields : List (String × Json)
  hash : List Nat
  ledgerSequence : Nat
  metaData : List (String × Json)

/-- Envelope-level keys: the fields the encode splice appends around the
    transaction's own fields (spec 6 boundary contract), hence not fields of
    the concrete transaction variant itself. -/
def envelopeKeys : List String := ["hash", "meta", "metaData", "inLedger", "ledger_index"]

/-- Member list of the payload restricted to the transaction's own fields. -/
def stripEnvelope (kvs : List (String × Json)) : List (String × Json) :=
  kvs.filter (fun kv => !(envelopeKeys.contains kv.1))

/-- Modelled from the spec: json.Unmarshal of the full input into the
    factory-built concrete transaction instance (spec 4.6 step 5).  The
    input must be a JSON object; the TransactionType member, when present,
    goes through the TransactionType text codec and must therefore name a
    registered type; the variant's own fields are stored structurally (the
    spec does not enumerate the per-variant field lists). -/
def txStructUnmarshal (b : String) : Except DecErr (List (String × Json)) :=
  match jsonParse b with
  | some (.jobj kvs) =>
    match lookupLast kvs "TransactionType" with
    | some (.jstr s) =>
      match TransactionType.UnmarshalText s with
      | .ok _ => .ok (stripEnvelope kvs)
      | .error t => .error (.unknownTxType t)
    | some _ => .error .badTxStruct
    | none => .ok (stripEnvelope kvs)
  | _ => .error .badTxStruct

/-- Modelled from the spec: json.Unmarshal of the full input against the
    merged txmNormal shape (spec 4.6 step 7, the flat meta spelling): the
    ledger sequence comes from the ledger_index member (a 32-bit unsigned
    number) and the execution metadata from the meta member (an object);
    either member may be absent, leaving the zero value. -/
def txmNormalUnmarshal (b : String) : Except DecErr (Nat × List (String × Json)) :=
  match jsonParse b with
  | some (.jobj kvs) =>
    match lookupLast kvs "ledger_index" with
    | some (.jnum n) =>
      if 0 ≤ n ∧ n < 4294967296 then
        match lookupLast kvs "meta" with
        | some (.jobj m) => .ok (n.toNat, m)
        | none => .ok (n.toNat, [])
        | some _ => .error .badMergedStruct
      else .error .badMergedStruct
    | none =>
      match lookupLast kvs "meta" with
      | some (.jobj m) => .ok (0, m)
      | none => .ok (0, [])
      | some _ => .error .badMergedStruct
    | some _ => .error .badMergedStruct
  | _ => .error .badMergedStruct

/-- Modelled from the spec: json.Unmarshal of the full input against the
    txmLedger wrapper (source lines 27-29): only the metaData member is
    read, into the execution-metadata shape; an absent member leaves the
    zero value. -/
def txmLedgerUnmarshal (b : String) : Except DecErr (List (String × Json)) :=
  match jsonParse b with
  | some (.jobj kvs) =>
    match lookupLast kvs "metaData" with
    | some (.jobj m) => .ok m
    | none => .ok []
    | some _ => .error .badLedgerMeta
  | _ => .error .badLedgerMeta

/-- Modelled from the spec: SetHash stores the decoded hash bytes into the
    result's 32-byte content-hash array (spec 4.6 step 6); Go's copy fills
    the fresh zero array with at most 32 of the decoded bytes. -/
def setHash (h : List Nat) : List Nat :=
  h.take 32 ++ List.replicate (32 - h.length) 0

/-- Model of TransactionWithMetaData.UnmarshalJSON (source lines 39-80).
    The factory is a parameter so that its use (or non-use) is observable;
    decodeTWM below fixes it to the spec-modelled registry. -/
def TransactionWithMetaData.UnmarshalJSON (factory : String → Option Nat) (b : String) :
    Outc DecErr TransactionWithMetaData :=
  let cs := b.data
  match scanTxType cs with
  | none => .err .missingTxType
  | some txType =>
    match scanHash cs with
    | none => .err .missingHash
    | some hash =>
      let metaType := (scanMeta cs).getD ""
      match factory txType with
      | none => .err (.unknownTxType txType)
      | some _ =>
        match hexDecodeString hash with
        | .error _ => .err (.badHash hash)
        | .ok h =>
          match txStructUnmarshal b with
          | .error e => .err e
          | .ok fields =>
            if metaType = "meta" then
              match txmNormalUnmarshal b with
              | .error e => .err e
              | .ok (ls, md) => .ok ⟨txType, fields, setHash h, ls, md⟩
            else if metaType = "metaData" then
              match txmLedgerUnmarshal b with
              | .error e => .err e
              | .ok md => .ok ⟨txType, fields, setHash h, 0, md⟩
            else .ok ⟨txType, fields, setHash h, 0, []⟩

/-- The envelope decoder with the spec-modelled factory plugged in. -/
def decodeTWM (b : String) : Outc DecErr TransactionWithMetaData :=
  TransactionWithMetaData.UnmarshalJSON GetTxFactoryByType b

/- ------------------------------------------------------------------ -/
/- Envelope encoding (source lines 82-96).                             -/
/- ------------------------------------------------------------------ -/

/-- Argument of a Sprintf verb: a string for s-verbs, a natural for d-verbs
    (the ledger sequence is an unsigned 32-bit integer). -/
inductive FmtArg
  | fs (s : String)
  | fd (n : Nat)

/-- Model of fmt.Sprintf restricted to the s and d verbs, the only ones the
    txmFormat string uses. -/
def formatGo : List Char → List FmtArg → List Char
  | [], _ => []
  | '%' :: 's' :: rest, (.fs s) :: args => s.data ++ formatGo rest args
  | '%' :: 'd' :: rest, (.fd n) :: args => (decString n).data ++ formatGo rest args
  | c :: rest, args => c :: formatGo rest args

/-- The txmFormat constant (source line 82). -/
def txmFormat : String :=
  "%s,\"hash\":\"%s\",\"inLedger\":%d,\"ledger_index\":%d,\"meta\":%s\x7d"

/-- Model of json.Marshal(txm.Transaction): the transaction's own fields
    rendered as a JSON object. -/
def marshalTx (txm : TransactionWithMetaData) : String :=
  String.mk (renderJson (.jobj txm.txFields))

/-- Model of json.Marshal(txm.MetaData): the metadata rendered as a JSON
    object. -/
def marshalMeta (txm : TransactionWithMetaData) : String :=
  String.mk (renderJson (.jobj txm.metaData))

/-- Modelled from the spec: the Hash256 String method (the source's b2h
    helper): the 64-character lowercase hex of the 32 content-hash bytes. -/
def hashString (txm : TransactionWithMetaData) : String := hexEncode txm.hash

/-- Model of TransactionWithMetaData.MarshalJSON (source lines 84-96): the
    transaction's encoded text without its final byte, spliced by Sprintf
    with the hash, both ledger-sequence spellings, and the metadata text. -/
def TransactionWithMetaData.MarshalJSON (txm : TransactionWithMetaData) : String :=
  String.mk (formatGo txmFormat.data
    [.fs (String.mk (marshalTx txm).data.dropLast),
     .fs (hashString txm),
     .fd txm.ledgerSequence,
     .fd txm.ledgerSequence,
     .fs (marshalMeta txm)])

/- ------------------------------------------------------------------ -/
/- Value and Amount (source lines 143-197).                            -/
/- ------------------------------------------------------------------ -/

/-- Modelled from the spec: the monetary Value entity (spec 3): a sign, an
    unsigned magnitude, a decimal exponent, and the Native flag. -/
structure Value where
  Native : Bool
  Negative : Bool
  Num : Nat
  Offset : Int
  deriving DecidableEq

/-- Modelled from the spec: the external decimal-parsing capability behind
    Value.Parse (spec 4.3, 6).  With the Native flag set the text is an
    unsigned integer count of smallest native units (a uint64); otherwise it
    is a signed decimal numeral parsed into mantissa and exponent. -/
def valueParse (native : Bool) (s : String) : Except Unit Value :=
  if native then
    match parseDecNat s.data with
    | some m => if m < 18446744073709551616 then .ok ⟨true, false, m, 0⟩ else .error ()
    | none => .error ()
  else
    let (neg, cs) :=
      match s.data with
      | '-' :: rest => (true, rest)
      | cs => (false, cs)
    let ip := cs.takeWhile isDigit
    let rest := cs.dropWhile isDigit
    if ip.isEmpty then .error ()
    else
      match rest with
      | [] =>
        if digitsVal ip < 18446744073709551616 then .ok ⟨false, neg, digitsVal ip, 0⟩
        else .error ()
      | '.' :: fr =>
        if fr.isEmpty || fr.any (fun c => !(isDigit c)) then .error ()
        else
          let m := digitsVal (ip ++ fr)
          if m < 18446744073709551616 then .ok ⟨false, neg, m, -(fr.length : Int)⟩
          else .error ()
      | _ => .error ()

/-- Modelled from the spec: the Value String method for the issued
    (non-native) representation; the spec does not fix this rendering, so it
    is kept as mantissa and exponent.  The native branch of MarshalText does
    not use it. -/
def valueString (v : Value) : String :=
  (if v.Negative then "-" else "") ++ decString v.Num ++ "e" ++ String.mk (intDec v.Offset)

/-- Model of Value.MarshalText (source lines 143-148): a native value
    renders as the bare decimal string of its magnitude. -/
def Value.MarshalText (v : Value) : String :=
  if v.Native then decString v.Num else valueString v

/-- Model of Value.UnmarshalText (source lines 151-154): the receiver's
    Native flag is set and the text is parsed as native units. -/
def Value.UnmarshalText (_v : Value) (b : String) : Except Unit Value :=
  valueParse true b

/-- Modelled from the spec: the Amount entity (spec 3): a Value plus a
    160-bit currency code and a 160-bit issuer identifier. -/
structure Amount where
  value : Value
  currency : List Nat
  issuer : List Nat
  deriving DecidableEq

/-- Modelled from the spec: NewCurrency (spec 4.2): a 3-character code is
    expanded into the standard 160-bit layout (twelve zero bytes, the three
    code characters, five zero bytes); 40 hex characters are used verbatim;
    any other length or format is a decode error. -/
def NewCurrency (s : String) : Except Unit (List Nat) :=
  if s.length = 3 then
    .ok (List.replicate 12 0 ++ s.data.map Char.toNat ++ List.replicate 5 0)
  else if s.length = 40 then
    match hexDecodeString s with
    | .ok bs => .ok bs
    | .error _ => .error ()
  else .error ()

/-- Model of Currency.UnmarshalText (source lines 203-207). -/
def Currency.UnmarshalText (b : String) : Except Unit (List Nat) := NewCurrency b

/-- Modelled from the spec: the Currency String method (spec 4.2): the
    standard layout renders as its 3 characters, anything else as 40 hex
    characters. -/
def currencyString (c : List Nat) : String :=
  if c.length = 20 ∧ c.take 12 = List.replicate 12 0 ∧ c.drop 15 = List.replicate 5 0 then
    String.mk ((c.drop 12).take 3 |>.map Char.ofNat)
  else hexEncode c

/-- Model of Currency.MarshalText (source lines 199-201). -/
def Currency.MarshalText (c : List Nat) : String := currencyString c

/-- Model of json.Unmarshal of the input into a map from strings to strings
    (source lines 173-174): the input must be a JSON object whose every
    member value is a string. -/
def mapStringString (b : String) : Option (List (String × String)) :=
  match jsonParse b with
  | some (.jobj kvs) =>
    kvs.foldr
      (fun kv acc =>
        match acc, kv.2 with
        | some l, .jstr s => some ((kv.1, s) :: l)
        | _, _ => none)
      (some [])
  | _ => none

/-- Go map lookup with the empty string as the zero value for a missing
    key; a duplicate JSON key leaves its last value. -/
def lookupLastStr (m : List (String × String)) (k : String) : String :=
  ((((m.filter (fun kv => kv.1 = k)).getLast?).map (fun kv => kv.2))).getD ""

/-- Model of Amount.UnmarshalJSON (source lines 169-197).  The issuer
    codec is the external base58 address capability (spec 6), passed as a
    parameter.  The fallback branch slices off the first and last input
    byte before parsing native units; on an input shorter than two bytes
    that slice is out of range, a runtime panic. -/
def Amount.UnmarshalJSON (issuerCodec : String → Except Unit (List Nat)) (b : String) :
    Outc Unit Amount :=
  match mapStringString b with
  | some m =>
    match NewCurrency (lookupLastStr m "currency") with
    | .error _ => .err ()
    | .ok cur =>
      match valueParse false (lookupLastStr m "value") with
      | .error _ => .err ()
      | .ok v =>
        match issuerCodec (lookupLastStr m "issuer") with
        | .error _ => .err ()
        | .ok iss => .ok ⟨v, cur, iss⟩
  | none =>
    if b.length < 2 then .crash
    else
      match valueParse true (String.mk ((b.data.drop 1).dropLast)) with
      | .ok v => .ok ⟨v, List.replicate 20 0, List.replicate 20 0⟩
      | .error _ => .err ()

/-- Model of Amount.MarshalJSON (source lines 162-167): a native amount is
    the quoted decimal magnitude; an issued amount is the three-member
    object, the issuer rendered by the external address capability. -/
def Amount.MarshalJSON (issuerText : List Nat → String) (a : Amount) : String :=
  if a.value.Native then "\"" ++ decString a.value.Num ++ "\""
  else
    String.mk (renderJson (.jobj
      [("value", .jstr (valueString a.value)),
       ("currency", .jstr (currencyString a.currency)),
       ("issuer", .jstr (issuerText a.issuer))]))

/- ------------------------------------------------------------------ -/
/- RippleTime (source lines 134-141).                                  -/
/- ------------------------------------------------------------------ -/

/-- Modelled from the spec: the rippleEpoch constant (spec 4.5): the
    946684800-second gap between the Unix epoch and the network epoch
    2000-01-01T00:00:00Z; the constant itself lives outside the embedded
    source file. -/
def rippleEpoch : Int := 946684800

/-- Two's-complement wrap-around of 64-bit signed integer arithmetic. -/
def wrap64 (n : Int) : Int := (n + 9223372036854775808) % 18446744073709551616 - 9223372036854775808

/-- Model of strconv.ParseInt(s, 10, 64): an optional sign, a non-empty
    run of decimal digits, and the 64-bit signed range check. -/
def parseInt64 (s : String) : Option Int :=
  match s.data with
  | [] => none
  | cs =>
    let (neg, ds) :=
      match cs with
      | '+' :: rest => (false, rest)
      | '-' :: rest => (true, rest)
      | _ => (false, cs)
    match parseDecNat ds with
    | none => none
    | some m =>
      if neg then
        if m ≤ 9223372036854775808 then some (-(m : Int)) else none
      else
        if m ≤ 9223372036854775807 then some (m : Int) else none

/-- Model of RippleTime.UnmarshalJSON (source lines 134-141): the result is
    the stored time as Unix seconds; the int64 addition of the epoch offset
    wraps as Go's does. -/
def RippleTime.UnmarshalJSON (b : String) : Except Unit Int :=
  match parseInt64 b with
  | some t => .ok (wrap64 (t + rippleEpoch))
  | none => .error ()

/- ------------------------------------------------------------------ -/
/- Fixed-size hash codecs (source lines 209-234, 283-291) and the
   receiver mode of each method.                                       -/
/- ------------------------------------------------------------------ -/

/-- Go method receiver modes: a value receiver works on a copy of the
    caller's variable, a pointer receiver on the variable itself. -/
inductive GoReceiver
  | byValue
  | byPointer
  deriving DecidableEq

/-- The state of the caller's variable after a method call: unchanged for a
    value receiver, the method body's final receiver state for a pointer
    receiver. -/
def receiverResult (m : GoReceiver) (before after : List Nat) : List Nat :=
  match m with
  | .byValue => before
  | .byPointer => after

/-- Model of hex.Decode(h[:], b): the outcome, and the receiver's byte
    array afterwards (the decoded prefix written over it, the rest kept). -/
def hexDecodeInto (h : List Nat) (cs : List Char) : HexRes × List Nat :=
  let r := hexDecodeCore h.length [] cs
  (r, r.written ++ h.drop r.written.length)

/-- Receiver mode of Hash128.UnmarshalText (source line 213): a value
    receiver. -/
def Hash128.receiver : GoReceiver := .byValue

/-- Receiver mode of Hash160.UnmarshalText (source line 222): a value
    receiver. -/
def Hash160.receiver : GoReceiver := .byValue

/-- Receiver mode of Hash256.UnmarshalText (source line 231): a pointer
    receiver. -/
def Hash256.receiver : GoReceiver := .byPointer

/-- Receiver mode of PublicKey.UnmarshalText (source line 288): a pointer
    receiver. -/
def PublicKey.receiver : GoReceiver := .byPointer

/-- Model of Hash128.UnmarshalText (source lines 213-216): the returned
    error outcome. -/
def Hash128.UnmarshalText (h : List Nat) (b : String) : HexRes :=
  (hexDecodeInto h b.data).1

/-- The caller's Hash128 after the UnmarshalText call. -/
def Hash128.unmarshalCaller (h : List Nat) (b : String) : List Nat :=
  receiverResult Hash128.receiver h (hexDecodeInto h b.data).2

/-- Model of Hash160.UnmarshalText (source lines 222-225). -/
def Hash160.UnmarshalText (h : List Nat) (b : String) : HexRes :=
  (hexDecodeInto h b.data).1

/-- The caller's Hash160 after the UnmarshalText call. -/
def Hash160.unmarshalCaller (h : List Nat) (b : String) : List Nat :=
  receiverResult Hash160.receiver h (hexDecodeInto h b.data).2

/-- Model of Hash256.UnmarshalText (source lines 231-234). -/
def Hash256.UnmarshalText (h : List Nat) (b : String) : HexRes :=
  (hexDecodeInto h b.data).1

/-- The caller's Hash256 after the UnmarshalText call. -/
def Hash256.unmarshalCaller (h : List Nat) (b : String) : List Nat :=
  receiverResult Hash256.receiver h (hexDecodeInto h b.data).2

/-- Model of PublicKey.UnmarshalText (source lines 288-291). -/
def PublicKey.UnmarshalText (h : List Nat) (b : String) : HexRes :=
  (hexDecodeInto h b.data).1

/-- Model of Hash128.MarshalText / Hash160.MarshalText / Hash256.MarshalText
    and PublicKey.MarshalText (source lines 209-229, 283-285): the b2h hex
    rendering of the receiver's bytes. -/
def hashMarshalText (h : List Nat) : String := hexEncode h

/-- Model of VariableLength.UnmarshalText (source lines 273-277):
    hex.DecodeString into a fresh slice. -/
def VariableLength.UnmarshalText (b : String) : Except Unit (List Nat) :=
  hexDecodeString b

/-- Model of VariableLength.MarshalText (source lines 279-281). -/
def VariableLength.MarshalText (v : List Nat) : String := hexEncode v

/- ------------------------------------------------------------------ -/
/- Concrete payloads and helper predicates used by the statements.     -/
/- ------------------------------------------------------------------ -/

/-- True when an Except value carries a result. -/
def exceptIsOk : Except ε α → Bool
  | .ok _ => true
  | .error _ => false

/-- A 64-character hex hash text used by the concrete payloads. -/
def hx64 : String := "00112233445566778899aabbccddeeff00112233445566778899aabbccddeeff"

/-- The 32 bytes hx64 decodes to. -/
def hx64Bytes : List Nat :=
  [0, 17, 34, 51, 68, 85, 102, 119, 136, 153, 170, 187, 204, 221, 238, 255,
   0, 17, 34, 51, 68, 85, 102, 119, 136, 153, 170, 187, 204, 221, 238, 255]

/-- A line-per-field payload carrying its metadata under the nested metaData
    key. -/
def payloadMetaData : String :=
  "\x7b\n \"TransactionType\": \"Payment\",\n \"hash\": \"" ++ hx64 ++
  "\",\n \"metaData\": \x7b\n  \"TransactionResult\": \"tesSUCCESS\"\n \x7d\n\x7d"

/-- The same payload carrying the metadata flat under the meta key, with a
    ledger_index member. -/
def payloadMetaFlat : String :=
  "\x7b\n \"TransactionType\": \"Payment\",\n \"hash\": \"" ++ hx64 ++
  "\",\n \"ledger_index\": 7,\n \"meta\": \x7b\n  \"TransactionResult\": \"tesSUCCESS\"\n \x7d\n\x7d"

/-- The same payload with neither metadata key. -/
def payloadNoMeta : String :=
  "\x7b\n \"TransactionType\": \"Payment\",\n \"hash\": \"" ++ hx64 ++ "\"\n\x7d"

/-- A compact one-line spelling of payloadMetaData's content. -/
def payloadCompact : String :=
  "\x7b\"TransactionType\":\"Payment\",\"hash\":\"" ++ hx64 ++
  "\",\"metaData\":\x7b\"x\":\"y\"\x7d\x7d"

/-- The envelope decoded from payloadMetaData. -/
def twmMetaData : TransactionWithMetaData :=
  ⟨"Payment", [("TransactionType", .jstr "Payment")], hx64Bytes, 0,
   [("TransactionResult", .jstr "tesSUCCESS")]⟩

/- ------------------------------------------------------------------ -/
/- C4.                                                                 -/
/- ------------------------------------------------------------------ -/

/-- C4: for every input text in which the TransactionType scan finds no
    value, TransactionWithMetaData.UnmarshalJSON returns the missing-field
    error, and the outcome is the same for every transaction factory: the
    factory capability is never invoked. -/
theorem unmarshal_twm_missing_txtype (f g : String → Option Nat) (b : String)
    (h : scanTxType b.data = none) :
    TransactionWithMetaData.UnmarshalJSON f b = .err .missingTxType ∧
    TransactionWithMetaData.UnmarshalJSON f b = TransactionWithMetaData.UnmarshalJSON g b := by
  simp only [TransactionWithMetaData.UnmarshalJSON, h]
  exact ⟨trivial, trivial⟩

/-- Witness for C4 at an input with no TransactionType value. -/
theorem unmarshal_twm_missing_txtype_witness :
    TransactionWithMetaData.UnmarshalJSON GetTxFactoryByType "\x7b\"x\":1\x7d" =
      .err .missingTxType :=
  (unmarshal_twm_missing_txtype GetTxFactoryByType (fun _ => none) "\x7b\"x\":1\x7d"
    (by decide)).1

/- ------------------------------------------------------------------ -/
/- C10.                                                                -/
/- ------------------------------------------------------------------ -/

/-- C10: Hash128.UnmarshalText and Hash160.UnmarshalText are declared on
    value receivers, so for every input text and every initial hash the
    caller's hash is unchanged after the call — the decoded bytes land in a
    method-local copy — while Hash256.UnmarshalText, on a pointer receiver,
    does update its target, as the concrete conjunct shows. -/
theorem hash_value_receiver_noop (h128 h160 : List Nat) (b : String) :
    Hash128.unmarshalCaller h128 b = h128 ∧
    Hash160.unmarshalCaller h160 b = h160 ∧
    Hash256.unmarshalCaller (List.replicate 32 0) "ff" ≠ List.replicate 32 0 := by
  refine ⟨rfl, rfl, ?_⟩
  decide

/- ------------------------------------------------------------------ -/
/- C9.                                                                 -/
/- ------------------------------------------------------------------ -/

theorem wrap64_eq_self (x : Int) (h1 : -9223372036854775808 ≤ x)
    (h2 : x < 9223372036854775808) : wrap64 x = x := by
  unfold wrap64
  rw [Int.emod_eq_of_lt (by omega) (by omega)]
  omega

/-- C9 counterexample: the input parsing to the largest int64 decodes, but
    the epoch addition wraps, so the result is not t + 946684800 interpreted
    as Unix seconds as the claim states. -/
theorem rippletime_overflow_cex :
    parseInt64 "9223372036854775807" = some 9223372036854775807 ∧
    RippleTime.UnmarshalJSON "9223372036854775807" = .ok (-9223372035908091009) ∧
    (-9223372035908091009 : Int) ≠ 9223372036854775807 + 946684800 := by
  refine ⟨by decide, rfl, by decide⟩

/-- C9 (amended): for every input text parsing as a signed 64-bit integer t
    whose epoch shift t + 946684800 stays within int64, decoding yields the
    time t + 946684800 as Unix seconds; for every input that is not a valid
    integer literal decoding returns an error. -/
theorem rippletime_decode (s : String) :
    (∀ t : Int, parseInt64 s = some t →
      -9223372036854775808 ≤ t + rippleEpoch →
      t + rippleEpoch < 9223372036854775808 →
      RippleTime.UnmarshalJSON s = .ok (t + rippleEpoch)) ∧
    (parseInt64 s = none → RippleTime.UnmarshalJSON s = .error ()) := by
  constructor
  · intro t hp hlo hhi
    unfold RippleTime.UnmarshalJSON
    rw [hp]
    show Except.ok (wrap64 (t + rippleEpoch)) = Except.ok (t + rippleEpoch)
    rw [wrap64_eq_self _ hlo hhi]
  · intro hp
    unfold RippleTime.UnmarshalJSON
    rw [hp]

/-- Witness for C9 at the spec's two examples: "0" decodes to the Unix time
    946684800 (2000-01-01T00:00:00Z) and "86400" to 946771200
    (2000-01-02T00:00:00Z); a non-numeral errors. -/
theorem rippletime_decode_witness :
    RippleTime.UnmarshalJSON "0" = .ok 946684800 ∧
    RippleTime.UnmarshalJSON "86400" = .ok 946771200 ∧
    RippleTime.UnmarshalJSON "12x" = .error () := by
  refine ⟨?_, ?_, (rippletime_decode "12x").2 (by decide)⟩
  · have h := (rippletime_decode "0").1 0 (by decide) (by decide) (by decide)
    rw [h]
    norm_num [rippleEpoch]
  · have h := (rippletime_decode "86400").1 86400 (by decide) (by decide) (by decide)
    rw [h]
    norm_num [rippleEpoch]

/- ------------------------------------------------------------------ -/
/- C8.                                                                 -/
/- ------------------------------------------------------------------ -/

/-- C8: for every native Value of magnitude m (canonical sign and exponent,
    m within uint64), MarshalText yields exactly the decimal string of m —
    no currency or issuer object, just the bare numeral — and UnmarshalText
    of that string, whatever the receiver held before, yields a native Value
    equal to the original. -/
theorem value_native_roundtrip (v w : Value)
    (hn : v.Native = true) (hneg : v.Negative = false) (ho : v.Offset = 0)
    (hb : v.Num < 18446744073709551616) :
    Value.MarshalText v = decString v.Num ∧
    Value.UnmarshalText w (Value.MarshalText v) = .ok v := by
  have hm : Value.MarshalText v = decString v.Num := by
    unfold Value.MarshalText
    rw [hn]
    simp
  refine ⟨hm, ?_⟩
  rw [hm]
  unfold Value.UnmarshalText valueParse
  simp only [if_true]
  rw [parseDecNat_decString]
  simp only [hb, if_true]
  cases v with
  | mk n ng nm off =>
    simp at hn hneg ho
    subst hn
    subst hneg
    subst ho
    rfl

/-- Witness for C8 at magnitude 42 with an arbitrary prior receiver. -/
theorem value_native_roundtrip_witness :
    Value.MarshalText ⟨true, false, 42, 0⟩ = decString 42 ∧
    Value.UnmarshalText ⟨false, true, 7, 3⟩ (Value.MarshalText ⟨true, false, 42, 0⟩) =
      .ok ⟨true, false, 42, 0⟩ :=
  value_native_roundtrip ⟨true, false, 42, 0⟩ ⟨false, true, 7, 3⟩ rfl rfl rfl (by decide)

/- ------------------------------------------------------------------ -/
/- C6.                                                                 -/
/- ------------------------------------------------------------------ -/

/-- C6 counterexample: the two-character text "00" decodes to one byte, not
    the expected 32, yet Hash256.UnmarshalText succeeds — the claim's
    must-fail-on-wrong-byte-count is false; the decoded byte overwrites the
    first array slot and the rest is untouched. -/
theorem hash256_short_hex_cex :
    Hash256.UnmarshalText (List.replicate 32 0) "00" = .okRes [0] ∧
    (Hash256.UnmarshalText (List.replicate 32 0) "00").isFormatErr = false ∧
    ([0] : List Nat).length ≠ 32 := by
  refine ⟨by decide, by decide, by decide⟩

/-- C6 (amended): an input of odd length or containing a non-hex character
    is rejected with a format error, without a panic, both by
    Hash256.UnmarshalText (for inputs within the 64 characters the 32-byte
    destination can absorb) and by the envelope's hex.DecodeString hash
    decode (any length); the exact-byte-count check the claim states is not
    performed, as the counterexample shows. -/
theorem hex_decode_format_errors (s : String) (h : List Nat)
    (hlen : s.length ≤ 64) (hcap : h.length = 32)
    (hbad : s.length % 2 = 1 ∨ ∃ c ∈ s.data, fromHexChar c = none) :
    (Hash256.UnmarshalText h s).isFormatErr = true ∧
    (Hash256.UnmarshalText h s).isCrash = false ∧
    exceptIsOk (hexDecodeString s) = false := by
  have hdata : s.length = s.data.length := rfl
  have hshape : ∀ cap w, (hexDecodeCore cap w s.data).isOk = true → False := by
    intro cap w hok
    obtain ⟨heven, hall⟩ := hexDecodeCore_ok_shape cap w s.data hok
    rcases hbad with hodd | ⟨c, hc, hcn⟩
    · rw [hdata] at hodd
      omega
    · have := hall c hc
      rw [hcn] at this
      simp at this
  constructor
  · apply HexRes.formatErr_of_not_ok_not_crash
    · cases hres : (hexDecodeCore (List.length h) [] s.data).isOk with
      | false => exact hres ▸ rfl
      | true => exact absurd hres (fun hres => hshape _ _ hres)
    · show (hexDecodeCore h.length [] s.data).isCrash = false
      apply hexDecodeCore_no_crash
      simp only [List.length_nil, Nat.sub_zero]
      rw [← hdata, hcap]
      omega
  constructor
  · show (hexDecodeCore h.length [] s.data).isCrash = false
    apply hexDecodeCore_no_crash
    simp only [List.length_nil, Nat.sub_zero]
    rw [← hdata, hcap]
    omega
  · unfold hexDecodeString
    cases hres : hexDecodeCore (s.length / 2) [] s.data with
    | okRes w =>
      exfalso
      apply hshape (s.length / 2) []
      rw [hres]
      rfl
    | errByte w => rfl
    | errLength w => rfl
    | crashRes w => rfl

/-- Witness for C6 at the odd-length text "0a1" and the non-hex text "0g". -/
theorem hex_decode_format_errors_witness :
    (Hash256.UnmarshalText (List.replicate 32 0) "0a1").isFormatErr = true ∧
    exceptIsOk (hexDecodeString "0g") = false :=
  ⟨(hex_decode_format_errors "0a1" (List.replicate 32 0) (by decide) (by decide)
      (Or.inl (by decide))).1,
   (hex_decode_format_errors "0g" (List.replicate 32 0) (by decide) (by decide)
      (Or.inr ⟨'g', by decide, by decide⟩)).2.2⟩

/- ------------------------------------------------------------------ -/
/- C5.                                                                 -/
/- ------------------------------------------------------------------ -/

/-- C5 counterexample: a payload whose TransactionType value is the
    unregistered "Bogus" but which carries no hash fails with the
    missing-hash error, not the unknown-identifier error the claim
    promises for every such payload. -/
theorem unregistered_type_missing_hash_cex :
    scanTxType ("\x7b\"TransactionType\":\"Bogus\"\x7d").data = some "Bogus" ∧
    registeredTxType "Bogus" = false ∧
    decodeTWM "\x7b\"TransactionType\":\"Bogus\"\x7d" = .err .missingHash := by
  refine ⟨by decide, by decide, rfl⟩

/-- C5 (amended): for every payload whose TransactionType scan yields an
    unregistered type name and whose hash scan finds a value, decode fails
    with the unknown-identifier error carrying that name; a payload without
    a hash value fails earlier, with the missing-hash error, as the
    counterexample shows. -/
theorem unregistered_txtype_err (b : String) (t hs : String)
    (hT : scanTxType b.data = some t) (hreg : registeredTxType t = false)
    (hH : scanHash b.data = some hs) :
    decodeTWM b = .err (.unknownTxType t) := by
  have hf : GetTxFactoryByType t = none := by
    unfold GetTxFactoryByType
    unfold registeredTxType at hreg
    cases hl : txTypes.lookup t with
    | none => rfl
    | some c => rw [hl] at hreg; simp at hreg
  simp only [decodeTWM, TransactionWithMetaData.UnmarshalJSON, hT, hH, hf]

/-- Witness for C5 at a line-per-field payload naming the unregistered type
    Bogus and carrying a hash value. -/
theorem unregistered_txtype_err_witness :
    decodeTWM "\x7b\n \"TransactionType\": \"Bogus\",\n \"hash\": \"00\"\n\x7d" =
      .err (.unknownTxType "Bogus") :=
  unregistered_txtype_err "\x7b\n \"TransactionType\": \"Bogus\",\n \"hash\": \"00\"\n\x7d"
    "Bogus" "00" (by decide) (by decide) (by decide)

/- ------------------------------------------------------------------ -/
/- C3.                                                                 -/
/- ------------------------------------------------------------------ -/

theorem getLast?_append_keep (c : Char) (l1 l2 : List Char) (h : l2.getLast? = some c) :
    (l1 ++ l2).getLast? = some c := by
  have hne : l2 ≠ [] := by
    intro he
    rw [he] at h
    simp at h
  rw [List.getLast?_append_of_ne_nil _ hne]
  exact h

theorem getLast?_cons_keep (c a : Char) (l : List Char) (h : l.getLast? = some c) :
    (a :: l).getLast? = some c := by
  have hx : a :: l = [a] ++ l := rfl
  rw [hx]
  exact getLast?_append_keep c [a] l h

/-- The rendering of an object member list always ends with the closing
    brace. -/
theorem renderObj_getLast (kvs : List (String × Json)) :
    (renderObj kvs).getLast? = some '\x7d' := by
  induction kvs with
  | nil => rfl
  | cons kv rest ih =>
    obtain ⟨k, v⟩ := kv
    cases rest with
    | nil =>
      show (renderStr k ++ ':' :: renderJson v ++ ['\x7d']).getLast? = some '\x7d'
      apply getLast?_append_keep
      rfl
    | cons m tail =>
      show (renderStr k ++ ':' :: renderJson v ++ ',' :: renderObj (m :: tail)).getLast?
          = some '\x7d'
      apply getLast?_append_keep
      exact getLast?_cons_keep _ _ _ ih

/-- The encoded transaction text ends with a closing brace, the byte the
    splice drops. -/
theorem marshalTx_getLast (txm : TransactionWithMetaData) :
    (marshalTx txm).data.getLast? = some '\x7d' := by
  show ('\x7b' :: renderObj txm.txFields).getLast? = some '\x7d'
  exact getLast?_cons_keep _ _ _ (renderObj_getLast _)

/-- C3: for every envelope value (both inner marshals always succeed in the
    model), the encoded output is the transaction's encoded text with its
    trailing closing brace dropped, followed by the literal splice suffix:
    the quoted hash, inLedger and ledger_index both carrying the decimal
    ledger sequence, and the metadata text; the hash text is 64 characters,
    all lowercase hex, and the dropped byte really is a closing brace. -/
theorem marshal_twm_splice (txm : TransactionWithMetaData) (hh : txm.hash.length = 32) :
    (TransactionWithMetaData.MarshalJSON txm).data =
      (marshalTx txm).data.dropLast ++ ",\"hash\":\"".data ++ (hashString txm).data
        ++ "\",\"inLedger\":".data ++ (decString txm.ledgerSequence).data
        ++ ",\"ledger_index\":".data ++ (decString txm.ledgerSequence).data
        ++ ",\"meta\":".data ++ (marshalMeta txm).data ++ "\x7d".data ∧
    (hashString txm).length = 64 ∧
    (∀ c ∈ (hashString txm).data, c ∈ "0123456789abcdef".data) ∧
    (marshalTx txm).data.getLast? = some '\x7d' := by
  refine ⟨?_, ?_, hexEncode_lower txm.hash, marshalTx_getLast txm⟩
  · show formatGo
        ('%' :: 's' :: ",\"hash\":\"%s\",\"inLedger\":%d,\"ledger_index\":%d,\"meta\":%s\x7d".data)
        [.fs (String.mk (marshalTx txm).data.dropLast), .fs (hashString txm),
         .fd txm.ledgerSequence, .fd txm.ledgerSequence, .fs (marshalMeta txm)] = _
    simp only [formatGo]
    simp
  · show (hexEncode txm.hash).length = 64
    rw [hexEncode_length, hh]

/-- Witness for C3 at the envelope decoded from payloadMetaData. -/
theorem marshal_twm_splice_witness :
    (TransactionWithMetaData.MarshalJSON twmMetaData).data =
      (marshalTx twmMetaData).data.dropLast ++ ",\"hash\":\"".data
        ++ (hashString twmMetaData).data
        ++ "\",\"inLedger\":".data ++ (decString twmMetaData.ledgerSequence).data
        ++ ",\"ledger_index\":".data ++ (decString twmMetaData.ledgerSequence).data
        ++ ",\"meta\":".data ++ (marshalMeta twmMetaData).data ++ "\x7d".data ∧
    (hashString twmMetaData).length = 64 :=
  ⟨(marshal_twm_splice twmMetaData (by decide)).1,
   (marshal_twm_splice twmMetaData (by decide)).2.1⟩

/- ------------------------------------------------------------------ -/
/- C1.                                                                 -/
/- ------------------------------------------------------------------ -/

set_option maxRecDepth 8000 in
/-- C1 counterexample: a compact one-line payload whose object carries the
    registered type Payment, a valid 64-hex hash, and a metaData object,
    yet decode errors instead of populating the metadata: the greedy
    TransactionType regex captures the last quoted string of the line. -/
theorem compact_metadata_payload_cex :
    jsonParse payloadCompact =
      some (.jobj [("TransactionType", .jstr "Payment"), ("hash", .jstr hx64),
                   ("metaData", .jobj [("x", .jstr "y")])]) ∧
    registeredTxType "Payment" = true ∧
    exceptIsOk (hexDecodeString hx64) = true ∧
    decodeTWM payloadCompact = .err (.unknownTxType "y") := by
  refine ⟨rfl, by decide, by decide, rfl⟩

/-- C1 (amended): for every payload whose discriminator scans agree with its
    object structure — the TransactionType scan yields the registered type
    the object names, the hash scan yields a hex-decodable value (as happens
    with one field per line) — decode populates the envelope as the claim
    states: under metaData, the metadata comes from the nested sub-object
    with ledger sequence zero; under meta, metadata and ledger sequence come
    from the merged flat shape; with neither key, metadata stays empty and
    the ledger sequence zero, and decode still succeeds. -/
theorem unmarshal_twm_meta_branches (b : String) (kvs : List (String × Json))
    (t hs : String) (hb : List Nat)
    (hT : scanTxType b.data = some t)
    (hH : scanHash b.data = some hs)
    (hreg : registeredTxType t = true)
    (hhex : hexDecodeString hs = .ok hb)
    (hparse : jsonParse b = some (.jobj kvs))
    (htt : lookupLast kvs "TransactionType" = some (.jstr t)) :
    (∀ md, scanMeta b.data = some "metaData" →
       lookupLast kvs "metaData" = some (.jobj md) →
       decodeTWM b = .ok ⟨t, stripEnvelope kvs, setHash hb, 0, md⟩) ∧
    (∀ ls md, scanMeta b.data = some "meta" →
       lookupLast kvs "ledger_index" = some (.jnum ls) →
       0 ≤ ls → ls < 4294967296 →
       lookupLast kvs "meta" = some (.jobj md) →
       decodeTWM b = .ok ⟨t, stripEnvelope kvs, setHash hb, ls.toNat, md⟩) ∧
    (scanMeta b.data = none →
       decodeTWM b = .ok ⟨t, stripEnvelope kvs, setHash hb, 0, []⟩) := by
  obtain ⟨c, hc⟩ : ∃ c, GetTxFactoryByType t = some c := by
    unfold GetTxFactoryByType
    unfold registeredTxType at hreg
    cases hl : txTypes.lookup t with
    | none => rw [hl] at hreg; simp at hreg
    | some c => exact ⟨c, rfl⟩
  have hlook : txTypes.lookup t = some c := hc
  have hstruct : txStructUnmarshal b = .ok (stripEnvelope kvs) := by
    simp only [txStructUnmarshal, hparse, htt, TransactionType.UnmarshalText, hlook]
  refine ⟨?_, ?_, ?_⟩
  · intro md hsm hmd
    have hledger : txmLedgerUnmarshal b = .ok md := by
      simp only [txmLedgerUnmarshal, hparse, hmd]
    simp only [decodeTWM, TransactionWithMetaData.UnmarshalJSON, hT, hH, hsm, hc, hhex,
      hstruct, hledger]
    simp
  · intro ls md hsm hli h0 hlt hmeta
    have hnormal : txmNormalUnmarshal b = .ok (ls.toNat, md) := by
      simp only [txmNormalUnmarshal, hparse, hli, hmeta]
      rw [if_pos ⟨h0, hlt⟩]
    simp only [decodeTWM, TransactionWithMetaData.UnmarshalJSON, hT, hH, hsm, hc, hhex,
      hstruct, hnormal]
    simp
  · intro hsm
    simp only [decodeTWM, TransactionWithMetaData.UnmarshalJSON, hT, hH, hsm, hc, hhex,
      hstruct]
    simp

/-- The envelope decoded from payloadMetaFlat. -/
def twmMetaFlat : TransactionWithMetaData :=
  ⟨"Payment", [("TransactionType", .jstr "Payment")], hx64Bytes, 7,
   [("TransactionResult", .jstr "tesSUCCESS")]⟩

/-- The envelope decoded from payloadNoMeta. -/
def twmNoMeta : TransactionWithMetaData :=
  ⟨"Payment", [("TransactionType", .jstr "Payment")], hx64Bytes, 0, []⟩

set_option maxRecDepth 8000 in
/-- Witness for C1 at the three line-per-field payloads. -/
theorem unmarshal_twm_meta_branches_witness :
    decodeTWM payloadMetaData = .ok twmMetaData ∧
    decodeTWM payloadMetaFlat = .ok twmMetaFlat ∧
    decodeTWM payloadNoMeta = .ok twmNoMeta :=
  ⟨(unmarshal_twm_meta_branches payloadMetaData
      [("TransactionType", .jstr "Payment"), ("hash", .jstr hx64),
       ("metaData", .jobj [("TransactionResult", .jstr "tesSUCCESS")])]
      "Payment" hx64 hx64Bytes (by decide) (by decide) (by decide) rfl rfl rfl).1
      [("TransactionResult", .jstr "tesSUCCESS")] (by decide) rfl,
   (unmarshal_twm_meta_branches payloadMetaFlat
      [("TransactionType", .jstr "Payment"), ("hash", .jstr hx64),
       ("ledger_index", .jnum 7), ("meta", .jobj [("TransactionResult", .jstr "tesSUCCESS")])]
      "Payment" hx64 hx64Bytes (by decide) (by decide) (by decide) rfl rfl rfl).2.1
      7 [("TransactionResult", .jstr "tesSUCCESS")] (by decide) rfl (by decide) (by decide) rfl,
   (unmarshal_twm_meta_branches payloadNoMeta
      [("TransactionType", .jstr "Payment"), ("hash", .jstr hx64)]
      "Payment" hx64 hx64Bytes (by decide) (by decide) (by decide) rfl rfl rfl).2.2
      (by decide)⟩

/- ------------------------------------------------------------------ -/
/- C2.                                                                 -/
/- ------------------------------------------------------------------ -/

set_option maxRecDepth 8000 in
/-- C2: the round trip the claim states fails on the code.  The envelope
    decoded from payloadMetaData encodes to a single compact line, and
    re-decoding that line fails: the greedy TransactionType regex captures
    the last quoted string of the line — here the transaction result name
    from the spliced metadata — which is no registered transaction type.
    The second decode therefore errors instead of returning an equal value. -/
theorem marshal_then_unmarshal_roundtrip_fails :
    decodeTWM payloadMetaData = .ok twmMetaData ∧
    TransactionWithMetaData.MarshalJSON twmMetaData =
      "\x7b\"TransactionType\":\"Payment\",\"hash\":\"00112233445566778899aabbccddeeff00112233445566778899aabbccddeeff\",\"inLedger\":0,\"ledger_index\":0,\"meta\":\x7b\"TransactionResult\":\"tesSUCCESS\"\x7d\x7d" ∧
    decodeTWM (TransactionWithMetaData.MarshalJSON twmMetaData) =
      .err (.unknownTxType "tesSUCCESS") :=
  ⟨rfl, rfl, rfl⟩

/- ------------------------------------------------------------------ -/
/- C7.                                                                 -/
/- ------------------------------------------------------------------ -/

/-- A concrete stand-in for the external base58 address-codec capability
    (spec 6), used to instantiate the issuer parameter at concrete inputs. -/
def dummyIssuerCodec (_s : String) : Except Unit (List Nat) :=
  .ok (List.replicate 20 0)

/-- C7 counterexample: two codec inputs that panic.  The bare numeral 5 is
    not a JSON object, so Amount.UnmarshalJSON falls back to slicing off the
    first and last byte of a one-byte input — an out-of-range slice; and a
    66-character hex text makes Hash256.UnmarshalText write past its
    32-byte destination. -/
theorem amount_unmarshal_crash_cex :
    Amount.UnmarshalJSON dummyIssuerCodec "5" = .crash ∧
    (Hash256.UnmarshalText (List.replicate 32 0) (String.mk (List.replicate 66 '0'))).isCrash
      = true := by
  refine ⟨rfl, by decide⟩

/-- C7 (amended): every modelled codec operation returns a result or a
    returned error — no panic — except in two corners: the fixed-size hex
    text decoders (the hashes and PublicKey) can write past their
    destination when the input is longer than twice the destination size
    plus one, and Amount.UnmarshalJSON's non-object fallback slices out of
    range when the input is shorter than two bytes; within those bounds,
    and unconditionally for hex.DecodeString and the envelope decode, no
    input panics. -/
theorem codec_no_crash (s : String) (h : List Nat) (codec : String → Except Unit (List Nat)) :
    (s.length ≤ 2 * h.length + 1 → (Hash128.UnmarshalText h s).isCrash = false) ∧
    (s.length ≤ 2 * h.length + 1 → (Hash160.UnmarshalText h s).isCrash = false) ∧
    (s.length ≤ 2 * h.length + 1 → (Hash256.UnmarshalText h s).isCrash = false) ∧
    (s.length ≤ 2 * h.length + 1 → (PublicKey.UnmarshalText h s).isCrash = false) ∧
    (hexDecodeCore (s.length / 2) [] s.data).isCrash = false ∧
    (2 ≤ s.length → (Amount.UnmarshalJSON codec s).noCrash = true) ∧
    (TransactionWithMetaData.UnmarshalJSON GetTxFactoryByType s).noCrash = true := by
  have hdata : s.length = s.data.length := rfl
  have hhex : s.length ≤ 2 * h.length + 1 →
      (hexDecodeCore h.length [] s.data).isCrash = false := by
    intro hlen
    apply hexDecodeCore_no_crash
    simp only [List.length_nil, Nat.sub_zero]
    omega
  refine ⟨hhex, hhex, hhex, hhex, ?_, ?_, ?_⟩
  · apply hexDecodeCore_no_crash
    simp only [List.length_nil, Nat.sub_zero]
    omega
  · intro hlen
    unfold Amount.UnmarshalJSON
    repeat' split
    all_goals first | rfl | omega
  · simp only [TransactionWithMetaData.UnmarshalJSON]
    repeat' split
    all_goals rfl

/-- Witness for C7: a short hex text within bounds and a quoted native
    amount, neither panicking. -/
theorem codec_no_crash_witness :
    (Hash256.UnmarshalText (List.replicate 32 0) "00").isCrash = false ∧
    (Amount.UnmarshalJSON dummyIssuerCodec "\"5\"").noCrash = true :=
  ⟨(codec_no_crash "00" (List.replicate 32 0) dummyIssuerCodec).2.2.1 (by decide),
   (codec_no_crash "\"5\"" (List.replicate 32 0) dummyIssuerCodec).2.2.2.2.2.1 (by decide)⟩

end RippleCodec
